import Mathlib

/-!
# Verification of `clg::ref` (cpp_lua_glue, `src/include/ref.hpp`)

A shallow embedding of the handle/reference-lifetime subsystem: the Lua
interpreter state (value stack + persistent registry + table heap), the
Lua C API primitives the header calls, and the `clg::ref` / `clg::table_view`
operations, each translated line-by-line from `src/include/ref.hpp`.

Modelling notes:
* The Lua C API functions (`lua_gettop`, `lua_pop`, `lua_rawgeti`,
  `luaL_ref`, `luaL_unref`, `lua_getmetatable`, `lua_setmetatable`,
  `lua_getfield`, `lua_settable`, `lua_rawset`, `lua_pushvalue`, ...) are
  external collaborators; they are modelled from the Lua 5.x reference
  manual.  In particular `luaL_ref` creates a reference for the object on
  the top of the stack *and pops that object*; `lua_rawgeti` pushes one
  value; `luaL_ref` on a nil top pops it and returns `LUA_REFNIL = -1`.
  The header's own balanced uses of these primitives (e.g. `metatable()`
  and `value_view::ref()` each pop exactly once after `from_stack` under a
  `stack_integrity_check`) are consistent only with these semantics; this
  internal consistency is proved below (`ref_metatable_stack`,
  `value_view_ref_stack`).
* The value-conversion capability (`clg::push_to_lua`,
  `clg::get_from_lua<T>`, `clg::any_to_string`) is external to this unit
  (spec section 6).  `push_to_lua` pushes exactly one value,
  `get_from_lua` is a typed read of a stack position that may fail with a
  conversion error, `any_to_string` is a total best-effort renderer.
* `clg::stack_integrity_check` and `clg::checkThread` only assert (record
  height / verify thread affinity); they do not change interpreter state,
  so they are invisible in the state-passing model — the balance the guard
  asserts is what the stack theorems prove.
* C++ assertions (`assert(...)`) become hypotheses of theorems.
* Lua tables are mutable objects with identity; they live in a heap
  indexed by table ids, and a `LuaValue.table id` is a reference into it.
-/

/-- A Lua value as seen across the C boundary: nil, a number, a string,
or a reference to a heap-allocated table or function object. -/
inductive LuaValue where
  | nil : LuaValue
  | num (n : Int) : LuaValue
  | str (s : String) : LuaValue
  | table (id : Nat) : LuaValue
  | func (id : Nat) : LuaValue
deriving DecidableEq, Repr

/-- A Lua table object: its raw fields and (optionally) the heap id of its
metatable. -/
structure TableObj where
  fields : List (LuaValue × LuaValue)
  meta : Option Nat
deriving DecidableEq, Repr

/-- The interpreter state of one `lua_State`: the value stack (head of the
list is the top, i.e. index `-1`), the persistent registry
(`LUA_REGISTRYINDEX` table, slot-keyed), the next free registry slot, and
the heap of table objects. -/
structure LuaState where
  stack : List LuaValue
  registry : List (Int × LuaValue)
  nextSlot : Int
  heap : List (Nat × TableObj)
deriving DecidableEq, Repr

/-- Model of `lua_gettop`: the number of elements on the stack. -/
def lua_gettop (s : LuaState) : Nat :=
  s.stack.length

/-- The value at a stack index: negative indices count from the top
(`-1` is the top), positive indices from the bottom (`1` is the bottom).
An out-of-range access yields nil (acceptable indices are a caller
precondition in the C API). -/
def stackAt (s : LuaState) (i : Int) : LuaValue :=
  if i < 0 then ((s.stack.get? (-i - 1).toNat).getD .nil)
  else ((s.stack.get? (s.stack.length - i.toNat)).getD .nil)

/-- Push one value onto the stack. -/
def lua_push (s : LuaState) (v : LuaValue) : LuaState :=
  { s with stack := v :: s.stack }

/-- Model of `lua_pop(L, n)`: remove the `n` topmost values. -/
def lua_pop (s : LuaState) (n : Nat) : LuaState :=
  { s with stack := s.stack.drop n }

/-- Model of `lua_pushvalue(L, n)`: push a copy of the value at index `n`. -/
def lua_pushvalue (s : LuaState) (n : Int) : LuaState :=
  lua_push s (stackAt s n)

/-- Model of `lua_pushstring`. -/
def lua_pushstring (s : LuaState) (t : String) : LuaState :=
  lua_push s (.str t)

/-- Registry lookup; an absent slot reads as nil (raw access to a table
never faults). -/
def regGet (s : LuaState) (r : Int) : LuaValue :=
  (((s.registry.find? (fun p => p.1 == r)).map Prod.snd).getD .nil)

/-- Model of `lua_rawgeti(L, LUA_REGISTRYINDEX, r)`: push `registry[r]`. -/
def lua_rawgeti_registry (s : LuaState) (r : Int) : LuaState :=
  lua_push s (regGet s r)

/-- Model of `luaL_ref(L, LUA_REGISTRYINDEX)` (Lua reference manual): creates and
returns a reference for the object on the top of the stack, *and pops
that object*.  For a nil top it returns `LUA_REFNIL = -1` (and still
pops). -/
def luaL_ref (s : LuaState) : Int × LuaState :=
  match s.stack with
  | [] => (-1, s)
  | v :: rest =>
    if v = .nil then (-1, { s with stack := rest })
    else (s.nextSlot,
          { s with stack := rest,
                   registry := (s.nextSlot, v) :: s.registry,
                   nextSlot := s.nextSlot + 1 })

/-- Model of `luaL_unref(L, LUA_REGISTRYINDEX, r)`: free slot `r`; negative refs
(`LUA_REFNIL`, `LUA_NOREF`) are ignored. -/
def luaL_unref (s : LuaState) (r : Int) : LuaState :=
  if 0 ≤ r then { s with registry := s.registry.filter (fun p => p.1 ≠ r) }
  else s

/-- Heap lookup of a table object. -/
def heapGet (s : LuaState) (id : Nat) : Option TableObj :=
  ((s.heap.find? (fun p => p.1 == id)).map Prod.snd)

/-- Overwrite a table object in the heap. -/
def heapSet (s : LuaState) (id : Nat) (t : TableObj) : LuaState :=
  { s with heap := (id, t) :: s.heap.filter (fun p => p.1 ≠ id) }

/-- Raw field read of a table object (no metamethods); absent key is nil. -/
def rawget (t : TableObj) (k : LuaValue) : LuaValue :=
  (((t.fields.find? (fun p => p.1 == k)).map Prod.snd).getD .nil)

/-- Raw field write of a table object (no metamethods). -/
def rawsetT (t : TableObj) (k v : LuaValue) : TableObj :=
  { t with fields := (k, v) :: t.fields.filter (fun p => p.1 ≠ k) }

/-- Model of `lua_istable`. -/
def lua_istable (s : LuaState) (i : Int) : Bool :=
  match stackAt s i with
  | .table _ => true
  | _ => false

/-- Model of `lua_isnil`. -/
def lua_isnil (s : LuaState) (i : Int) : Bool :=
  stackAt s i == .nil

/-- Model of `lua_isfunction`. -/
def lua_isfunction (s : LuaState) (i : Int) : Bool :=
  match stackAt s i with
  | .func _ => true
  | _ => false

/-- Model of `lua_rawset(L, i)`: with the key at `-2` and the value at `-1`, store
raw (bypassing `__newindex`) into the table at index `i`, popping key and
value.  Indices here are negative (the header uses `-3`). -/
def lua_rawset (s : LuaState) (i : Int) : LuaState :=
  let v := stackAt s (-1)
  let k := stackAt s (-2)
  let tv := stackAt s i
  let s1 := lua_pop s 2
  match tv with
  | .table id =>
    match heapGet s1 id with
    | some t => heapSet s1 id (rawsetT t k v)
    | none => s1
  | _ => s1

/-- The `index` event of the Lua core (`gettable`): raw hit wins; on a raw
miss the `__index` metafield is consulted, a table handler being indexed
in turn.  Fuel bounds metatable chains.  A function `__index` handler
would call back into Lua; such calls are outside this unit and are
modelled as yielding nil. -/
def luaGettable (s : LuaState) : LuaValue → LuaValue → Nat → LuaValue
  | _, _, 0 => .nil
  | .table id, k, fuel + 1 =>
    match heapGet s id with
    | some t =>
      if rawget t k ≠ .nil then rawget t k
      else
        match t.meta with
        | some mid =>
          match heapGet s mid with
          | some mt => luaGettable s (rawget mt (.str "__index")) k fuel
          | none => .nil
        | none => .nil
    | none => .nil
  | _, _, _ + 1 => .nil

/-- Model of `lua_getfield(L, i, k)`: push `(value at i)[k]`, honouring `__index`. -/
def lua_getfield (s : LuaState) (i : Int) (k : String) : LuaState :=
  lua_push s (luaGettable s (stackAt s i) (.str k) (s.heap.length + 1))

/-- The `newindex` event of the Lua core (`settable`): if the key is raw
present, or no `__newindex` metafield exists, the store is raw; otherwise
the store is redirected to a table handler (a function handler would call
back into Lua — outside this unit, modelled as leaving the state
unchanged). -/
def luaSettable (s : LuaState) : LuaValue → LuaValue → LuaValue → Nat → LuaState
  | _, _, _, 0 => s
  | .table id, k, v, fuel + 1 =>
    match heapGet s id with
    | some t =>
      if rawget t k ≠ .nil then heapSet s id (rawsetT t k v)
      else
        match t.meta with
        | some mid =>
          match heapGet s mid with
          | some mt =>
            match rawget mt (.str "__newindex") with
            | .nil => heapSet s id (rawsetT t k v)
            | h => luaSettable s h k v fuel
          | none => heapSet s id (rawsetT t k v)
        | none => heapSet s id (rawsetT t k v)
    | none => s
  | _, _, _, _ + 1 => s

/-- Model of `lua_settable(L, i)`: with the key at `-2` and the value at `-1`,
perform the `newindex` store into the value at index `i`, popping key and
value. -/
def lua_settable (s : LuaState) (i : Int) : LuaState :=
  let v := stackAt s (-1)
  let k := stackAt s (-2)
  let tv := stackAt s i
  luaSettable (lua_pop s 2) tv k v (s.heap.length + 1)

/-- Model of `lua_getmetatable(L, i)`: if the value at `i` has a metatable, push it
and return true; otherwise push nothing and return false. -/
def lua_getmetatable (s : LuaState) (i : Int) : Bool × LuaState :=
  match stackAt s i with
  | .table id =>
    match heapGet s id with
    | some t =>
      match t.meta with
      | some mid => (true, lua_push s (.table mid))
      | none => (false, s)
    | none => (false, s)
  | _ => (false, s)

/-- Model of `lua_setmetatable(L, i)`: pop the table (or nil) on the top and set it
as the metatable of the value at index `i` (negative index). -/
def lua_setmetatable (s : LuaState) (i : Int) : LuaState :=
  let m := stackAt s (-1)
  let tv := stackAt s i
  let s1 := lua_pop s 1
  match tv with
  | .table id =>
    match heapGet s1 id with
    | some t =>
      match m with
      | .table mid => heapSet s1 id { t with meta := some mid }
      | .nil => heapSet s1 id { t with meta := none }
      | _ => s1
    | none => s1
  | _ => s1

/-- Modelled from the spec: the external push capability (`clg::push_to_lua`,
spec section 6) — "given a native-typed value and a context, push its
foreign-runtime representation onto that context's stack".  The native
value is taken already in its foreign representation, so the push is one
stack push. -/
def push_to_lua (s : LuaState) (v : LuaValue) : LuaState :=
  lua_push s v

/-- Modelled from the spec: the external human-readable-render capability
(`clg::any_to_string`, spec section 6) — a best-effort display string that
never propagates errors. -/
def any_to_string : LuaValue → String
  | .nil => "nil"
  | .num n => toString n
  | .str t => t
  | .table id => "table: " ++ toString id
  | .func id => "function: " ++ toString id

/-- Model of `clg::ref` (src/include/ref.hpp, lines 11-192): the data members
`lua_State* mLua = nullptr` (a nullable context pointer, modelled as an
optional context id) and `int mPtr = -1` (a registry slot, `-1` is the
sentinel). -/
structure Ref where
  mLua : Option Nat := none
  mPtr : Int := -1
deriving DecidableEq, Repr

/-- The default / `nullptr` constructor: the canonical null handle. -/
def Ref.null : Ref := {}

/-- Model of `ref::isNull`: `mPtr == -1`. -/
def Ref.isNull (r : Ref) : Bool :=
  r.mPtr == -1

/-- Model of `ref::operator==(std::nullptr_t)`: `mPtr == -1`. -/
def Ref.eqNullptr (r : Ref) : Bool :=
  r.mPtr == -1

/-- Model of `ref::push_value_to_stack`: `lua_rawgeti(mLua, LUA_REGISTRYINDEX, mPtr)`
(asserts `mLua != nullptr`; the assertion path is a theorem
precondition). -/
def Ref.push_value_to_stack (r : Ref) (s : LuaState) : LuaState :=
  lua_rawgeti_registry s r.mPtr

/-- Model of `ref::incRef` (lines 181-189): if the top of the stack is nil, pop it
and return `-1`; otherwise `luaL_ref` it into the registry. -/
def incRef (s : LuaState) : Int × LuaState :=
  if lua_isnil s (-1) then (-1, lua_pop s 1)
  else luaL_ref s

/-- Model of `ref::releaseIfNotNull` (lines 174-179): if `mPtr != -1`, `luaL_unref`
the slot (after the thread-affinity check, which is stateless). -/
def Ref.releaseIfNotNull (r : Ref) (s : LuaState) : LuaState :=
  if r.mPtr ≠ -1 then luaL_unref s r.mPtr else s

/-- The private capturing constructor `ref(lua_State*)` (line 191):
`mLua(state), mPtr(incRef())`. -/
def Ref.capture (L : Nat) (s : LuaState) : Ref × LuaState :=
  let p := incRef s
  ({ mLua := some L, mPtr := p.1 }, p.2)

/-- Model of `ref::from_stack` (lines 67-70): asserts the stack is non-empty, then
invokes the capturing constructor. -/
def Ref.from_stack (L : Nat) (s : LuaState) : Ref × LuaState :=
  Ref.capture L s

/-- Model of `ref::from_cpp` (lines 29-33): `push_to_lua` the native value, then
`from_stack`. -/
def Ref.from_cpp (L : Nat) (s : LuaState) (v : LuaValue) : Ref × LuaState :=
  Ref.from_stack L (push_to_lua s v)

/-- The copy constructor `ref(const ref&)` (lines 14-21): `mLua` is copied;
`mPtr` is computed by pushing the source's value and `incRef`-ing it when
the source has a context, and is `-1` otherwise. -/
def Ref.copyCtor (other : Ref) (s : LuaState) : Ref × LuaState :=
  match other.mLua with
  | some L =>
    let s1 := other.push_value_to_stack s
    let p := incRef s1
    ({ mLua := some L, mPtr := p.1 }, p.2)
  | none => ({ mLua := none, mPtr := -1 }, s)

/-- The move constructor `ref(ref&&)` (lines 22-25): steal `(mLua, mPtr)`,
null the source.  Returns (new handle, source after being moved from); no
interpreter interaction. -/
def Ref.moveCtor (other : Ref) : Ref × Ref :=
  ({ mLua := other.mLua, mPtr := other.mPtr }, { mLua := none, mPtr := -1 })

/-- Model of `ref::operator=(ref&&)` (lines 35-41): overwrite `(mLua, mPtr)` with
the source's and null the source.  Note: the header does **not** release
the previous slot of the assigned-to handle.  Returns (new self, source
after move). -/
def Ref.moveAssign (_self other : Ref) : Ref × Ref :=
  ({ mLua := other.mLua, mPtr := other.mPtr }, { mLua := none, mPtr := -1 })

/-- Model of `ref::operator=(const ref&)` (lines 42-54): identical `(mLua, mPtr)`
pair is a no-op; otherwise overwrite `mLua` and recompute `mPtr` by
push-and-`incRef` when the source has a context.  Note: the header does
**not** release the previous slot of the assigned-to handle. -/
def Ref.copyAssign (self other : Ref) (s : LuaState) : Ref × LuaState :=
  if self.mLua = other.mLua ∧ self.mPtr = other.mPtr then (self, s)
  else
    match other.mLua with
    | some _ =>
      let s1 := other.push_value_to_stack s
      let p := incRef s1
      ({ mLua := other.mLua, mPtr := p.1 }, p.2)
    | none => ({ mLua := other.mLua, mPtr := -1 }, s)

/-- The destructor `~ref()` (lines 56-58): `releaseIfNotNull`. -/
def Ref.dtor (r : Ref) (s : LuaState) : LuaState :=
  r.releaseIfNotNull s

/-- Model of `ref::operator=(std::nullptr_t)` (lines 61-65): `releaseIfNotNull`,
then `mPtr = -1`.  Note: `mLua` is left untouched by the header. -/
def Ref.nullAssign (r : Ref) (s : LuaState) : Ref × LuaState :=
  (⟨r.mLua, -1⟩, r.releaseIfNotNull s)

/-- Model of `ref::metatable` (lines 72-82): push the value; if `lua_getmetatable`
pushes a metatable, capture it with `from_stack`, pop the value and return
the capture; otherwise pop the value and return `nullptr` (the canonical
null handle).  A null-context call would fail the assertion inside
`push_value_to_stack`; that path returns the null handle here and is
excluded by theorem preconditions. -/
def Ref.metatable (r : Ref) (s : LuaState) : Ref × LuaState :=
  match r.mLua with
  | some L =>
    let s1 := r.push_value_to_stack s
    match lua_getmetatable s1 (-1) with
    | (true, s2) =>
      let p := Ref.from_stack L s2
      (p.1, lua_pop p.2 1)
    | (false, s2) => (Ref.null, lua_pop s2 1)
  | none => (Ref.null, s)

/-- Model of `ref::set_metatable` (lines 84-91): push the value, push the
metatable value, `lua_setmetatable(-2)`, pop the value. -/
def Ref.set_metatable (r : Ref) (meta : LuaValue) (s : LuaState) : LuaState :=
  let s1 := r.push_value_to_stack s
  let s2 := push_to_lua s1 meta
  let s3 := lua_setmetatable s2 (-2)
  lua_pop s3 1

/-- Model of `ref::debug_str` (lines 98-107): a null handle yields the literal
placeholder `"nil"` (a five-character string, quotes included) without
touching the interpreter; otherwise push, render via `any_to_string`,
pop. -/
def Ref.debug_str (r : Ref) (s : LuaState) : String × LuaState :=
  if r.isNull then ("\"nil\"", s)
  else
    let s1 := r.push_value_to_stack s
    let t := any_to_string (stackAt s1 (-1))
    (t, lua_pop s1 1)

/-- Model of `ref::as<T>` (lines 129-143): asserts non-null; push the value, run
the external typed read `get_from_lua<T>` at `-1`, pop on success and on
failure alike, propagating the read's outcome.  The typed-read capability
is a parameter (spec section 6). -/
def Ref.as {T : Type} (g : LuaValue → Except String T) (r : Ref)
    (s : LuaState) : Except String T × LuaState :=
  let s1 := r.push_value_to_stack s
  match g (stackAt s1 (-1)) with
  | .ok v => (.ok v, lua_pop s1 1)
  | .error e => (.error e, lua_pop s1 1)

/-- Model of `ref::is<T>` (lines 145-159): like `as`, but a read failure becomes
`none` instead of propagating. -/
def Ref.isT {T : Type} (g : LuaValue → Except String T) (r : Ref)
    (s : LuaState) : Option T × LuaState :=
  let s1 := r.push_value_to_stack s
  match g (stackAt s1 (-1)) with
  | .ok v => (some v, lua_pop s1 1)
  | .error _ => (none, lua_pop s1 1)

/-- Model of `ref::isFunction` (lines 117-123): push, `lua_isfunction(-1)`, pop. -/
def Ref.isFunction (r : Ref) (s : LuaState) : Bool × LuaState :=
  let s1 := r.push_value_to_stack s
  (lua_isfunction s1 (-1), lua_pop s1 1)

/-- Model of `table_view::value_view::ref` (lines 203-216): push the table's value;
if it is not a table, pop and return the canonical null handle; otherwise
`lua_getfield` the key, capture the result with `from_stack`, pop the
table and return the capture. -/
def value_view_ref (table : Ref) (name : String) (s : LuaState) :
    Ref × LuaState :=
  match table.mLua with
  | some L =>
    let s1 := table.push_value_to_stack s
    if ¬ lua_istable s1 (-1) then (Ref.null, lua_pop s1 1)
    else
      let s2 := lua_getfield s1 (-1) name
      let p := Ref.from_stack L s2
      (p.1, lua_pop p.2 1)
  | none => (Ref.null, s)

/-- Model of `table_view::value_view::operator=` (lines 223-233): push the table's
value, push the key string, push the assigned value, `lua_settable(-3)`
(honouring `__newindex`), pop the table. -/
def value_view_assign (table : Ref) (name : String) (t : LuaValue)
    (s : LuaState) : LuaState :=
  let s1 := table.push_value_to_stack s
  let s2 := lua_pushstring s1 name
  let s3 := push_to_lua s2 t
  let s4 := lua_settable s3 (-3)
  lua_pop s4 1

/-- Model of `table_view::raw_set` (lines 245-254): push the table's value, push
key and value, `lua_rawset(-3)` (bypassing `__newindex`), pop the
table. -/
def raw_set (table : Ref) (key value : LuaValue) (s : LuaState) : LuaState :=
  let s1 := table.push_value_to_stack s
  let s2 := push_to_lua s1 key
  let s3 := push_to_lua s2 value
  let s4 := lua_rawset s3 (-3)
  lua_pop s4 1

/-- Model of `converter<clg::ref>::from_lua` (lines 264-267): `lua_pushvalue(n)`
then capture with `from_stack`. -/
def converter_from_lua (L : Nat) (s : LuaState) (n : Int) : Ref × LuaState :=
  Ref.from_stack L (lua_pushvalue s n)

/-- Model of `converter<clg::ref>::to_lua` (lines 268-275): a null handle pushes
nil; otherwise push the referenced value; either way report one pushed
value. -/
def converter_to_lua (s : LuaState) (r : Ref) : Int × LuaState :=
  if r.isNull then (1, lua_push s .nil)
  else (1, r.push_value_to_stack s)

/-! ## Sample states and scenario runs -/

/-- A sample state: one value (the number 42) on the stack, empty
registry. -/
def sOne : LuaState := ⟨[.num 42], [], 1, []⟩

/-- A sample state with nil on top. -/
def sNilTop : LuaState := ⟨[.nil], [(3, .num 7)], 4, []⟩

/-- An empty interpreter state. -/
def sEmpty : LuaState := ⟨[], [], 1, []⟩

/-- First handle of the C2 scenario: `a = ref::from_cpp(L, 42)`. -/
def c2a : Ref × LuaState := Ref.from_cpp 0 sEmpty (.num 42)

/-- Second handle of the C2 scenario: `b = ref::from_cpp(L, 43)`. -/
def c2b : Ref × LuaState := Ref.from_cpp 0 c2a.2 (.num 43)

/-- Copy-assignment `a = b` of the C2 scenario. -/
def c2assigned : Ref × LuaState := Ref.copyAssign c2a.1 c2b.1 c2b.2

/-- The C2 scenario after destroying both handles. -/
def c2final : LuaState := Ref.dtor c2b.1 (Ref.dtor c2assigned.1 c2assigned.2)

/-- Move-assignment `a = std::move(b)` variant of the C2 scenario. -/
def c2moved : Ref × Ref := Ref.moveAssign c2a.1 c2b.1

/-- The move variant after destroying both handles. -/
def c2finalMove : LuaState := Ref.dtor c2moved.2 (Ref.dtor c2moved.1 c2b.2)

/-- A sample state whose registry binds slot 1 to the number 42, and a
handle owning that slot. -/
def sReg42 : LuaState := ⟨[], [(1, .num 42)], 2, []⟩

/-- The handle owning slot 1 of `sReg42`. -/
def rSlot1 : Ref := ⟨some 0, 1⟩

/-- A state with a table (id 5, no fields, no metatable) registered at
slot 1. -/
def sTable : LuaState := ⟨[], [(1, .table 5)], 2, [(5, ⟨[], none⟩)]⟩

/-- One public operation on a handle or view, with its arguments.  The
typed-read capability argument of `as`/`is` is arbitrary, so both its
success and its failure (conversion error) paths are covered. -/
inductive HOp where
  | typedRead (g : LuaValue → Except String LuaValue) (r : Ref)
  | tryRead (g : LuaValue → Except String LuaValue) (r : Ref)
  | getMeta (r : Ref)
  | setMeta (r : Ref) (m : LuaValue)
  | debugStr (r : Ref)
  | isFunc (r : Ref)
  | viewGet (r : Ref) (name : String)
  | viewAssign (r : Ref) (name : String) (v : LuaValue)
  | rawSet (r : Ref) (k v : LuaValue)

/-- The state transformer of one public operation (the returned value, if
any, is discarded; only the interpreter state flows on). -/
def applyOp : HOp → LuaState → LuaState
  | .typedRead g r, s => (Ref.as g r s).2
  | .tryRead g r, s => (Ref.isT g r s).2
  | .getMeta r, s => (Ref.metatable r s).2
  | .setMeta r m, s => Ref.set_metatable r m s
  | .debugStr r, s => (Ref.debug_str r s).2
  | .isFunc r, s => (Ref.isFunction r s).2
  | .viewGet r name, s => (value_view_ref r name s).2
  | .viewAssign r name v, s => value_view_assign r name v s
  | .rawSet r k v, s => raw_set r k v s

/-- Run a sequence of public operations. -/
def applyOps (ops : List HOp) (s : LuaState) : LuaState :=
  ops.foldl (fun t op => applyOp op t) s

/-- The C8 counterexample state: slot 1 holds table 8, whose field "k" is
raw-present and whose metatable (table 9) defines a `__newindex` handler
redirecting to table 3. -/
def sC8 : LuaState :=
  ⟨[], [(1, .table 8)], 2,
   [(8, ⟨[(.str "k", .num 1)], some 9⟩),
    (9, ⟨[(.str "__newindex", .table 3)], none⟩),
    (3, ⟨[], none⟩)]⟩

/-- The C8 witness state: slot 1 holds table 1 (empty, metatable table 2
whose `__newindex` redirects to the empty table 3). -/
def sC8b : LuaState :=
  ⟨[], [(1, .table 1)], 2,
   [(1, ⟨[], some 2⟩),
    (2, ⟨[(.str "__newindex", .table 3)], none⟩),
    (3, ⟨[], none⟩)]⟩

/-! ## Helper lemmas -/

theorem lua_pop_push (s : LuaState) (v : LuaValue) :
    lua_pop (lua_push s v) 1 = s := rfl

theorem stackAt_push_neg1 (s : LuaState) (v : LuaValue) :
    stackAt (lua_push s v) (-1) = v := rfl

theorem stackAt_cons_neg1 (v : LuaValue) (rest : List LuaValue)
    (reg : List (Int × LuaValue)) (ns : Int) (hp : List (Nat × TableObj)) :
    stackAt ⟨v :: rest, reg, ns, hp⟩ (-1) = v := rfl

theorem incRef_cons (v : LuaValue) (rest : List LuaValue)
    (reg : List (Int × LuaValue)) (ns : Int) (hp : List (Nat × TableObj)) :
    incRef ⟨v :: rest, reg, ns, hp⟩ =
      if v = .nil then (-1, ⟨rest, reg, ns, hp⟩)
      else (ns, ⟨rest, (ns, v) :: reg, ns + 1, hp⟩) := by
  by_cases hv : v = LuaValue.nil <;>
    simp [incRef, lua_isnil, stackAt_cons_neg1, luaL_ref, lua_pop, hv]

theorem incRef_stack (s : LuaState) : (incRef s).2.stack = s.stack.tail := by
  match s with
  | ⟨stk, reg, ns, hp⟩ =>
    cases stk with
    | nil => simp [incRef, lua_isnil, stackAt, luaL_ref, lua_pop]
    | cons v rest =>
      rw [incRef_cons]
      by_cases hv : v = LuaValue.nil <;> simp [hv]

theorem incRef_heap (s : LuaState) : (incRef s).2.heap = s.heap := by
  match s with
  | ⟨stk, reg, ns, hp⟩ =>
    cases stk with
    | nil => simp [incRef, lua_isnil, stackAt, luaL_ref, lua_pop]
    | cons v rest =>
      rw [incRef_cons]
      by_cases hv : v = LuaValue.nil <;> simp [hv]

theorem find?_filter_of_imp {α : Type} (q r : α → Bool) (l : List α)
    (h : ∀ x, q x = true → r x = true) :
    (l.filter r).find? q = l.find? q := by
  induction l with
  | nil => rfl
  | cons a t ih =>
    by_cases hq : q a = true
    · have hr := h a hq
      rw [List.filter_cons, if_pos hr, List.find?_cons_of_pos _ hq,
          List.find?_cons_of_pos _ hq]
    · rw [List.filter_cons]
      by_cases hr : r a = true
      · rw [if_pos hr, List.find?_cons_of_neg _ hq, List.find?_cons_of_neg _ hq, ih]
      · rw [if_neg hr, List.find?_cons_of_neg _ hq, ih]

theorem find?_filter_self_none (l : List (Int × LuaValue)) (r : Int) :
    (l.filter (fun p => p.1 ≠ r)).find? (fun p => p.1 == r) = none := by
  rw [List.find?_eq_none]
  intro x hx
  rw [List.mem_filter] at hx
  simpa using hx.2

/-! ## C1: capturing the top of the stack -/

/-- Claim C1, counterexample: capturing the top of the stack with
`ref::from_stack` does **not** leave the stack height unchanged — on a
stack of height 1 the height afterwards is 0, because the registration
primitive (`luaL_ref`) consumes the value it registers. -/
theorem C1_counterexample :
    (Ref.from_stack 0 sOne).2.stack.length = 0 ∧ sOne.stack.length = 1 := by
  decide

/-- Claim C1 (amended): for every context whose stack is non-empty,
`ref::from_stack` captures the top value into the registry (when the top
is not nil it is registered under the fresh slot held by the returned
handle, which is non-null) but *consumes* it: the stack afterwards is the
entry stack minus its top, i.e. the height drops by exactly one. -/
theorem C1_amended (L : Nat) (s : LuaState) (h : s.stack ≠ [])
    (hns : 0 ≤ s.nextSlot) :
    (Ref.from_stack L s).2.stack = s.stack.tail ∧
    (Ref.from_stack L s).2.stack.length + 1 = s.stack.length ∧
    (stackAt s (-1) ≠ .nil →
      (Ref.from_stack L s).1.isNull = false ∧
      regGet (Ref.from_stack L s).2 (Ref.from_stack L s).1.mPtr
        = stackAt s (-1)) := by
  match s, h with
  | ⟨v :: rest, reg, ns, hp⟩, _ =>
    have hns2 : (0:Int) ≤ ns := hns
    by_cases hv : v = LuaValue.nil
    · subst hv
      simp [Ref.from_stack, Ref.capture, incRef_cons, stackAt_cons_neg1]
    · simp only [Ref.from_stack, Ref.capture, incRef_cons, if_neg hv,
                 stackAt_cons_neg1]
      refine ⟨rfl, rfl, fun _ => ⟨?_, ?_⟩⟩
      · have hne : (ns : Int) ≠ -1 := by omega
        simp [Ref.isNull, hne]
      · simp [regGet]

/-- Witness for C1 (amended) at the sample state. -/
theorem C1_amended_witness :
    sOne.stack ≠ [] ∧ (0:Int) ≤ sOne.nextSlot ∧
    (Ref.from_stack 0 sOne).2.stack = sOne.stack.tail :=
  ⟨by decide, by decide, (C1_amended 0 sOne (by decide) (by decide)).1⟩

/-! ## C5: capturing a nil top yields the null handle -/

/-- Claim C5: if the top of the stack is the foreign nil, `ref::from_stack`
returns a handle with `isNull() == true` and registers nothing: the
registry is untouched (the nil is still popped). -/
theorem C5_nil_capture (L : Nat) (s : LuaState) (h : s.stack ≠ [])
    (hnil : stackAt s (-1) = .nil) :
    (Ref.from_stack L s).1.isNull = true ∧
    (Ref.from_stack L s).2.registry = s.registry := by
  match s, h with
  | ⟨v :: rest, reg, ns, hp⟩, _ =>
    have hv : v = LuaValue.nil := by
      rw [stackAt_cons_neg1] at hnil
      exact hnil
    subst hv
    simp [Ref.from_stack, Ref.capture, incRef_cons, Ref.isNull]

/-- Witness for C5 at a concrete state with nil on top. -/
theorem C5_nil_capture_witness :
    sNilTop.stack ≠ [] ∧ stackAt sNilTop (-1) = .nil ∧
    ((Ref.from_stack 0 sNilTop).1.isNull = true ∧
     (Ref.from_stack 0 sNilTop).2.registry = sNilTop.registry) :=
  ⟨by decide, by decide, C5_nil_capture 0 sNilTop (by decide) (by decide)⟩

/-! ## C2: registry-slot ownership under assignment -/

/-- Claim C2, violation exhibited: build `a = from_cpp(42)`,
`b = from_cpp(43)`, copy-assign `a = b`, then destroy both handles; and
likewise with a move-assignment.  In both runs the registry slot that `a`
originally owned (slot 1, holding the number 42) is still registered at
the end: `ref::operator=` overwrites `mPtr` without calling
`releaseIfNotNull`, so the overwritten slot is never released — the
claim's "exactly one releasing event" is violated (zero releasing events
occur for slot 1). -/
theorem C2_assign_leaks_slot :
    c2a.1.mPtr = 1 ∧
    c2final.registry = [(1, .num 42)] ∧
    c2finalMove.registry = [(1, .num 42)] := by
  decide

/-! ## C3: assigning null -/

/-- Claim C3, counterexample: after `h = nullptr` on a handle whose
context pointer was non-null, the context pointer is **still** non-null
(`mLua` is untouched by `operator=(std::nullptr_t)`), so the result is
not the canonical null handle (context null + sentinel slot), even though
`isNull()` is true. -/
theorem C3_counterexample :
    (Ref.nullAssign ⟨some 0, 1⟩ ⟨[], [(1, .num 42)], 2, []⟩).1.mLua = some 0 ∧
    (Ref.nullAssign ⟨some 0, 1⟩ ⟨[], [(1, .num 42)], 2, []⟩).1.isNull = true := by
  decide

/-- Claim C3 (amended): assigning null to a handle releases its current
registry slot if it has one (afterwards the slot reads back as nil from
the registry), performs no interpreter push (the stack is untouched; when
the handle was already null the whole state is untouched), and leaves the
handle with the sentinel slot, so `isNull()` is true — but the handle's
context pointer is left unchanged rather than being nulled, so the result
is not the canonical null handle when the context was non-null. -/
theorem C3_amended (h : Ref) (s : LuaState) :
    (Ref.nullAssign h s).1.isNull = true ∧
    (Ref.nullAssign h s).1.mLua = h.mLua ∧
    (Ref.nullAssign h s).2.stack = s.stack ∧
    (h.mPtr = -1 → (Ref.nullAssign h s).2 = s) ∧
    (0 ≤ h.mPtr → regGet (Ref.nullAssign h s).2 h.mPtr = .nil) := by
  refine ⟨by simp [Ref.nullAssign, Ref.isNull], rfl, ?_, ?_, ?_⟩
  · by_cases hp : h.mPtr = -1
    · simp [Ref.nullAssign, Ref.releaseIfNotNull, hp]
    · by_cases hge : (0:Int) ≤ h.mPtr <;>
        simp [Ref.nullAssign, Ref.releaseIfNotNull, luaL_unref, hp, hge]
  · intro hp
    simp [Ref.nullAssign, Ref.releaseIfNotNull, hp]
  · intro hge
    have hp : h.mPtr ≠ -1 := by omega
    simp only [Ref.nullAssign, Ref.releaseIfNotNull, if_pos hp, luaL_unref,
               if_pos hge, regGet]
    rw [find?_filter_self_none]
    rfl

/-- Witness for C3 (amended): a handle owning slot 1 over a registry that
holds it; after null-assignment the slot reads back as nil. -/
theorem C3_amended_witness :
    (0:Int) ≤ (⟨some 0, 1⟩ : Ref).mPtr ∧
    regGet (Ref.nullAssign ⟨some 0, 1⟩ ⟨[], [(1, .num 42)], 2, []⟩).2
      (⟨some 0, 1⟩ : Ref).mPtr = .nil :=
  ⟨by decide,
   (C3_amended ⟨some 0, 1⟩ ⟨[], [(1, .num 42)], 2, []⟩).2.2.2.2 (by decide)⟩

/-! ## C6: debug strings -/

/-- Claim C6: `ref::debug_str` on a null handle returns the literal
placeholder string (the five characters `"nil"`, quotes included) and
leaves the interpreter state untouched; on a non-null handle it pushes
the referenced value, renders it with the total external capability
`any_to_string`, and pops, restoring the state exactly.  The operation is
a total function: it never fails. -/
theorem C6_debug_str (r : Ref) (s : LuaState) :
    (r.isNull = true → Ref.debug_str r s = ("\"nil\"", s)) ∧
    (r.isNull = false →
      (Ref.debug_str r s).1 = any_to_string (regGet s r.mPtr) ∧
      (Ref.debug_str r s).2 = s) := by
  constructor
  · intro hn
    simp [Ref.debug_str, hn]
  · intro hn
    constructor
    · simp [Ref.debug_str, hn, Ref.push_value_to_stack, lua_rawgeti_registry,
            stackAt_push_neg1]
    · simp [Ref.debug_str, hn, Ref.push_value_to_stack, lua_rawgeti_registry,
            lua_pop_push]

/-- Witness for C6 on a non-null handle referencing the number 42. -/
theorem C6_debug_str_witness :
    rSlot1.isNull = false ∧
    ((Ref.debug_str rSlot1 sReg42).1 = any_to_string (regGet sReg42 rSlot1.mPtr) ∧
     (Ref.debug_str rSlot1 sReg42).2 = sReg42) :=
  ⟨by decide, (C6_debug_str rSlot1 sReg42).2 (by decide)⟩

/-! ## C9: copying a handle is independent of the original -/

/-- Claim C9: copying a non-null handle `h` (whose slot is registered to a
non-nil value `v`) registers a *fresh* slot — the copy's slot is the next
free slot, distinct from `h`'s — bound to the same value `v`; and
destroying the copy leaves `h` intact: `h` is still non-null, its slot
still reads back as `v`, its debug string is unchanged, and the stack is
restored. -/
theorem C9_copy_independent (h : Ref) (L : Nat) (s : LuaState) (v : LuaValue)
    (hm : h.mLua = some L) (hp : 0 ≤ h.mPtr) (hv : regGet s h.mPtr = v)
    (hvn : v ≠ .nil) (hfresh : h.mPtr < s.nextSlot) :
    (Ref.copyCtor h s).1.mPtr = s.nextSlot ∧
    (Ref.copyCtor h s).1.mPtr ≠ h.mPtr ∧
    regGet (Ref.copyCtor h s).2 (Ref.copyCtor h s).1.mPtr = v ∧
    h.isNull = false ∧
    regGet (Ref.dtor (Ref.copyCtor h s).1 (Ref.copyCtor h s).2) h.mPtr = v ∧
    (Ref.debug_str h (Ref.dtor (Ref.copyCtor h s).1 (Ref.copyCtor h s).2)).1
      = (Ref.debug_str h s).1 ∧
    (Ref.dtor (Ref.copyCtor h s).1 (Ref.copyCtor h s).2).stack = s.stack := by
  match s with
  | ⟨stk, reg, ns, hp2⟩ =>
    have hfr : h.mPtr < ns := hfresh
    have hc : Ref.copyCtor h ⟨stk, reg, ns, hp2⟩
        = ({ mLua := some L, mPtr := ns }, ⟨stk, (ns, v) :: reg, ns + 1, hp2⟩) := by
      simp only [Ref.copyCtor, hm, Ref.push_value_to_stack,
                 lua_rawgeti_registry, hv, lua_push]
      rw [incRef_cons, if_neg hvn]
    have hnsne : (ns : Int) ≠ -1 := by omega
    have hne : (ns : Int) ≠ h.mPtr := by omega
    have hdtor : Ref.dtor { mLua := some L, mPtr := ns }
          (⟨stk, (ns, v) :: reg, ns + 1, hp2⟩ : LuaState)
        = ⟨stk, reg.filter (fun p => p.1 ≠ ns), ns + 1, hp2⟩ := by
      rw [Ref.dtor, Ref.releaseIfNotNull, if_pos hnsne, luaL_unref,
          if_pos (by omega : (0:Int) ≤ ns)]
      simp [List.filter_cons, hnsne]
    have hregfilter : regGet ⟨stk, reg.filter (fun p => p.1 ≠ ns), ns + 1, hp2⟩ h.mPtr
        = regGet ⟨stk, reg, ns, hp2⟩ h.mPtr := by
      simp only [regGet]
      rw [find?_filter_of_imp]
      intro x hx
      simp only [beq_iff_eq] at hx
      simp [hx, hne.symm]
    have hnull : h.isNull = false := by
      have : h.mPtr ≠ -1 := by omega
      simp [Ref.isNull, this]
    rw [hc, hdtor]
    refine ⟨rfl, by simpa using hne, ?_, hnull, ?_, ?_, rfl⟩
    · simp [regGet]
    · rw [hregfilter, hv]
    · rw [Ref.debug_str, Ref.debug_str, hnull]
      simp only [Bool.false_eq_true, if_false]
      simp only [Ref.push_value_to_stack, lua_rawgeti_registry,
                 stackAt_push_neg1, hregfilter]

/-- Witness for C9: copy the handle to slot 1 (value 42) and destroy the
copy; the original still reads 42. -/
theorem C9_copy_independent_witness :
    regGet sReg42 rSlot1.mPtr = .num 42 ∧
    regGet (Ref.dtor (Ref.copyCtor rSlot1 sReg42).1
      (Ref.copyCtor rSlot1 sReg42).2) rSlot1.mPtr = .num 42 :=
  ⟨by decide,
   (C9_copy_independent rSlot1 0 sReg42 (.num 42) (by decide) (by decide)
      (by decide) (by decide) (by decide)).2.2.2.2.1⟩

/-! ## C10: converter round-trip for null handles -/

/-- Claim C10: `converter<clg::ref>::to_lua` on a null handle pushes
exactly one value, the foreign nil; `converter<clg::ref>::from_lua` on a
stack position holding nil yields a null handle and leaves the state
unchanged (the temporary copy it pushes is consumed by the capture); and
composing the two (push a null handle, read index `-1` back) yields a
null handle again. -/
theorem C10_null_roundtrip (s : LuaState) (r : Ref) (L : Nat)
    (hr : r.isNull = true) :
    converter_to_lua s r = (1, lua_push s .nil) ∧
    (∀ n : Int, stackAt s n = .nil →
      (converter_from_lua L s n).1.isNull = true ∧
      (converter_from_lua L s n).2 = s) ∧
    (converter_from_lua L (converter_to_lua s r).2 (-1)).1.isNull = true := by
  have hto : converter_to_lua s r = (1, lua_push s .nil) := by
    simp [converter_to_lua, hr]
  have hfrom : ∀ (t : LuaState) (n : Int), stackAt t n = .nil →
      (converter_from_lua L t n).1.isNull = true ∧
      (converter_from_lua L t n).2 = t := by
    intro t n hn
    match t with
    | ⟨stk, reg, ns, hp⟩ =>
      rw [converter_from_lua, lua_pushvalue, hn]
      have hpush : lua_push (⟨stk, reg, ns, hp⟩ : LuaState) .nil
          = (⟨.nil :: stk, reg, ns, hp⟩ : LuaState) := rfl
      rw [hpush, Ref.from_stack, Ref.capture, incRef_cons]
      simp [Ref.isNull]
  refine ⟨hto, fun n hn => hfrom s n hn, ?_⟩
  have := hfrom (lua_push s .nil) (-1) (stackAt_push_neg1 s .nil)
  rw [hto]
  exact this.1

/-- Witness for C10 at a concrete state and the canonical null handle. -/
theorem C10_null_roundtrip_witness :
    Ref.null.isNull = true ∧
    converter_to_lua sReg42 Ref.null = (1, lua_push sReg42 .nil) :=
  ⟨by decide, (C10_null_roundtrip sReg42 Ref.null 0 (by decide)).1⟩

/-! ## C7: keyed reads through the proxy are total -/

theorem incRef_push_nil (s : LuaState) : incRef (lua_push s .nil) = (-1, s) := by
  have h1 : lua_isnil (lua_push s .nil) (-1) = true := by
    rw [lua_isnil, stackAt_push_neg1]; decide
  simp only [incRef, h1, if_true, lua_pop_push]

/-- Claim C7: reading through the keyed proxy (`value_view::ref`) is a
total function.  If the referenced value is not a container, the proxy
returns the canonical null handle (no context, sentinel slot) and leaves
the state unchanged; if it is a genuine container (no metatable) lacking
the key, the resolved handle is null (not a fault) and the state is again
unchanged. -/
theorem C7_view_get_total (table : Ref) (L : Nat) (name : String)
    (s : LuaState) (hL : table.mLua = some L) :
    ((∀ id : Nat, regGet s table.mPtr ≠ .table id) →
      value_view_ref table name s = (Ref.null, s)) ∧
    (∀ (id : Nat) (t : TableObj), regGet s table.mPtr = .table id →
      heapGet s id = some t → rawget t (.str name) = .nil → t.meta = none →
      (value_view_ref table name s).1.isNull = true ∧
      (value_view_ref table name s).2 = s) := by
  constructor
  · intro hnt
    simp only [value_view_ref, hL, Ref.push_value_to_stack,
               lua_rawgeti_registry]
    cases hv : regGet s table.mPtr with
    | table id => exact absurd hv (hnt id)
    | nil => simp [lua_istable, stackAt_push_neg1, hv, lua_pop_push]
    | num n => simp [lua_istable, stackAt_push_neg1, hv, lua_pop_push]
    | str t => simp [lua_istable, stackAt_push_neg1, hv, lua_pop_push]
    | func f => simp [lua_istable, stackAt_push_neg1, hv, lua_pop_push]
  · intro id t hv ht hraw hmeta
    simp only [value_view_ref, hL, Ref.push_value_to_stack,
               lua_rawgeti_registry, hv]
    have h1 : lua_istable (lua_push s (.table id)) (-1) = true := by
      rw [lua_istable, stackAt_push_neg1]
    have hget : lua_getfield (lua_push s (.table id)) (-1) name
        = lua_push (lua_push s (.table id)) .nil := by
      rw [lua_getfield, stackAt_push_neg1]
      have hh : (lua_push s (.table id)).heap = s.heap := rfl
      have hg : luaGettable (lua_push s (.table id)) (.table id) (.str name)
          ((lua_push s (.table id)).heap.length + 1) = .nil := by
        have ht2 : heapGet (lua_push s (.table id)) id = some t := ht
        rw [hh, luaGettable, ht2]
        simp [hraw, hmeta]
      rw [hg]
    rw [h1]
    simp only [Bool.not_true, Bool.false_eq_true, if_false, hget,
               Ref.from_stack, Ref.capture, incRef_push_nil, lua_pop_push]
    exact ⟨rfl, rfl⟩

/-- Witness for C7: resolving a missing key of a genuine container yields
a null handle and an unchanged state. -/
theorem C7_view_get_total_witness :
    regGet sTable rSlot1.mPtr = .table 5 ∧
    ((value_view_ref rSlot1 "missing" sTable).1.isNull = true ∧
     (value_view_ref rSlot1 "missing" sTable).2 = sTable) :=
  ⟨by decide,
   (C7_view_get_total rSlot1 0 "missing" sTable (by decide)).2 5 ⟨[], none⟩
     (by decide) (by decide) (by decide) (by decide)⟩

/-! ## C4: stack balance of all public operations -/

theorem ref_as_state {T : Type} (g : LuaValue → Except String T) (r : Ref)
    (s : LuaState) : (Ref.as g r s).2 = s := by
  rw [Ref.as]
  cases g (stackAt (r.push_value_to_stack s) (-1)) <;>
    simp [Ref.push_value_to_stack, lua_rawgeti_registry, lua_pop_push]

theorem ref_isT_state {T : Type} (g : LuaValue → Except String T) (r : Ref)
    (s : LuaState) : (Ref.isT g r s).2 = s := by
  rw [Ref.isT]
  cases g (stackAt (r.push_value_to_stack s) (-1)) <;>
    simp [Ref.push_value_to_stack, lua_rawgeti_registry, lua_pop_push]

theorem ref_debug_str_state (r : Ref) (s : LuaState) :
    (Ref.debug_str r s).2 = s := by
  rw [Ref.debug_str]
  by_cases hn : r.isNull <;>
    simp [hn, Ref.push_value_to_stack, lua_rawgeti_registry, lua_pop_push]

theorem ref_isFunction_state (r : Ref) (s : LuaState) :
    (Ref.isFunction r s).2 = s := by
  rw [Ref.isFunction]
  simp [Ref.push_value_to_stack, lua_rawgeti_registry, lua_pop_push]

theorem lua_getmetatable_shape (s : LuaState) (i : Int) :
    lua_getmetatable s i = (false, s) ∨
    ∃ m, lua_getmetatable s i = (true, lua_push s (.table m)) := by
  rw [lua_getmetatable]
  repeat' split
  all_goals first
    | exact Or.inl rfl
    | exact Or.inr ⟨_, rfl⟩

theorem ref_metatable_stack (r : Ref) (s : LuaState) :
    (Ref.metatable r s).2.stack = s.stack := by
  rw [Ref.metatable]
  cases hL : r.mLua with
  | none => rfl
  | some L =>
    have hstack : (r.push_value_to_stack s).stack = regGet s r.mPtr :: s.stack := rfl
    rcases lua_getmetatable_shape (r.push_value_to_stack s) (-1) with h | ⟨m, h⟩
    · simp only [h, lua_pop, hstack, List.drop_succ_cons, List.drop_zero]
    · have h2 : (incRef (lua_push (r.push_value_to_stack s) (.table m))).2.stack
          = (r.push_value_to_stack s).stack := by
        rw [incRef_stack]; rfl
      simp only [h, Ref.from_stack, Ref.capture, lua_pop, h2, hstack,
                 List.drop_succ_cons, List.drop_zero]

theorem lua_setmetatable_stack (s : LuaState) (i : Int) :
    (lua_setmetatable s i).stack = s.stack.drop 1 := by
  simp only [lua_setmetatable]
  repeat' split
  all_goals simp [heapSet, lua_pop]

theorem ref_set_metatable_stack (r : Ref) (m : LuaValue) (s : LuaState) :
    (Ref.set_metatable r m s).stack = s.stack := by
  rw [Ref.set_metatable]
  simp [lua_pop, lua_setmetatable_stack, push_to_lua, lua_push,
        Ref.push_value_to_stack, lua_rawgeti_registry]

theorem lua_rawset_stack (s : LuaState) (i : Int) :
    (lua_rawset s i).stack = s.stack.drop 2 := by
  simp only [lua_rawset]
  repeat' split
  all_goals simp [heapSet, lua_pop]

theorem raw_set_stack (r : Ref) (k v : LuaValue) (s : LuaState) :
    (raw_set r k v s).stack = s.stack := by
  rw [raw_set]
  simp [lua_pop, lua_rawset_stack, push_to_lua, lua_push,
        Ref.push_value_to_stack, lua_rawgeti_registry]

theorem luaSettable_stack (s : LuaState) (tv k v : LuaValue) (fuel : Nat) :
    (luaSettable s tv k v fuel).stack = s.stack := by
  induction fuel generalizing tv with
  | zero => cases tv <;> rfl
  | succ n ih =>
    cases tv with
    | table id =>
      rw [luaSettable]
      repeat' split
      all_goals first
        | rfl
        | simp [heapSet]
        | exact ih _
    | nil => rfl
    | num n2 => rfl
    | str t => rfl
    | func f => rfl

theorem lua_settable_stack (s : LuaState) (i : Int) :
    (lua_settable s i).stack = s.stack.drop 2 := by
  rw [lua_settable]
  simp [luaSettable_stack, lua_pop]

theorem value_view_assign_stack (r : Ref) (name : String) (v : LuaValue)
    (s : LuaState) : (value_view_assign r name v s).stack = s.stack := by
  rw [value_view_assign]
  simp [lua_pop, lua_settable_stack, push_to_lua, lua_pushstring, lua_push,
        Ref.push_value_to_stack, lua_rawgeti_registry]

theorem value_view_ref_stack (r : Ref) (name : String) (s : LuaState) :
    (value_view_ref r name s).2.stack = s.stack := by
  cases hL : r.mLua with
  | none => simp [value_view_ref, hL]
  | some L =>
    simp only [value_view_ref, hL]
    have hstack : (r.push_value_to_stack s).stack = regGet s r.mPtr :: s.stack := rfl
    by_cases ht : lua_istable (r.push_value_to_stack s) (-1)
    · rw [if_neg (by simpa using ht)]
      have h2 : (incRef (lua_getfield (r.push_value_to_stack s) (-1) name)).2.stack
          = (r.push_value_to_stack s).stack := by
        rw [incRef_stack]; rfl
      simp only [Ref.from_stack, Ref.capture, lua_pop, h2, hstack,
                 List.drop_succ_cons, List.drop_zero]
    · rw [if_pos (by simpa using ht)]
      simp [lua_pop, hstack]

theorem applyOp_stack (op : HOp) (s : LuaState) :
    (applyOp op s).stack = s.stack := by
  cases op with
  | typedRead g r => rw [applyOp, ref_as_state]
  | tryRead g r => rw [applyOp, ref_isT_state]
  | getMeta r => exact ref_metatable_stack r s
  | setMeta r m => exact ref_set_metatable_stack r m s
  | debugStr r => rw [applyOp, ref_debug_str_state]
  | isFunc r => rw [applyOp, ref_isFunction_state]
  | viewGet r name => exact value_view_ref_stack r name s
  | viewAssign r name v => exact value_view_assign_stack r name v s
  | rawSet r k v => exact raw_set_stack r k v s

/-- Claim C4: every public operation on a handle or view — typed read
(`as`), try-read (`is`), metatable query, set-metatable, debug string,
`isFunction`, keyed get through the proxy, keyed proxy assignment, raw
set — leaves the interpreter stack height unchanged, on every exit path
(the typed-read capability `g` is arbitrary, so failing conversions are
covered), and hence so does every sequence of such operations. -/
theorem C4_stack_balance :
    (∀ (op : HOp) (s : LuaState),
      lua_gettop (applyOp op s) = lua_gettop s) ∧
    (∀ (ops : List HOp) (s : LuaState),
      lua_gettop (applyOps ops s) = lua_gettop s) := by
  have hone : ∀ (op : HOp) (s : LuaState),
      lua_gettop (applyOp op s) = lua_gettop s := by
    intro op s
    rw [lua_gettop, lua_gettop, applyOp_stack]
  refine ⟨hone, ?_⟩
  intro ops
  induction ops with
  | nil => intro s; rfl
  | cons op t ih =>
    intro s
    have h1 : applyOps (op :: t) s = applyOps t (applyOp op s) := rfl
    rw [h1, ih, hone]

/-! ## C8: raw store versus field-assignment store -/

theorem heapGet_heapSet_self (s : LuaState) (id : Nat) (t : TableObj) :
    heapGet (heapSet s id t) id = some t := by
  simp [heapGet, heapSet]

theorem heapGet_heapSet_other (s : LuaState) (id j : Nat) (t : TableObj)
    (h : j ≠ id) : heapGet (heapSet s id t) j = heapGet s j := by
  simp only [heapGet, heapSet]
  rw [List.find?_cons_of_neg, find?_filter_of_imp]
  · intro x hx
    simp only [beq_iff_eq] at hx
    simp [hx, h]
  · simp [Ne.symm h]

theorem stackAt_push3_neg2 (s : LuaState) (a b c : LuaValue) :
    stackAt (lua_push (lua_push (lua_push s a) b) c) (-2) = b := rfl

theorem stackAt_push3_neg3 (s : LuaState) (a b c : LuaValue) :
    stackAt (lua_push (lua_push (lua_push s a) b) c) (-3) = a := rfl

theorem pop2_push3 (s : LuaState) (a b c : LuaValue) :
    lua_pop (lua_push (lua_push (lua_push s a) b) c) 2 = lua_push s a := rfl

theorem lua_push_heap (s : LuaState) (v : LuaValue) :
    (lua_push s v).heap = s.heap := rfl

theorem lua_pop_heapSet_push (s : LuaState) (a : LuaValue) (id : Nat)
    (t : TableObj) :
    lua_pop (heapSet (lua_push s a) id t) 1 = heapSet s id t := rfl

theorem luaSettable_table (s : LuaState) (id : Nat) (k v : LuaValue)
    (fuel : Nat) :
    luaSettable s (.table id) k v (fuel + 1) =
      (match heapGet s id with
       | some t =>
         if rawget t k ≠ .nil then heapSet s id (rawsetT t k v)
         else
           match t.meta with
           | some mid =>
             match heapGet s mid with
             | some mt =>
               match rawget mt (.str "__newindex") with
               | .nil => heapSet s id (rawsetT t k v)
               | h => luaSettable s h k v fuel
             | none => heapSet s id (rawsetT t k v)
           | none => heapSet s id (rawsetT t k v)
       | none => s) := rfl

theorem raw_set_eval (table : Ref) (k v : LuaValue) (s : LuaState)
    (id : Nat) (t : TableObj) (hv : regGet s table.mPtr = .table id)
    (ht : heapGet s id = some t) :
    raw_set table k v s = heapSet s id (rawsetT t k v) := by
  have h1 : table.push_value_to_stack s = lua_push s (.table id) := by
    rw [Ref.push_value_to_stack, lua_rawgeti_registry, hv]
  rw [raw_set, h1]
  simp only [push_to_lua, lua_rawset, stackAt_push_neg1, stackAt_push3_neg2,
             stackAt_push3_neg3, pop2_push3]
  have ht2 : heapGet (lua_push s (.table id)) id = some t := ht
  rw [ht2, lua_pop_heapSet_push]

theorem value_view_assign_eval_nometa (table : Ref) (name : String)
    (v : LuaValue) (s : LuaState) (id : Nat) (t : TableObj)
    (hv : regGet s table.mPtr = .table id) (ht : heapGet s id = some t)
    (hm : t.meta = none) :
    value_view_assign table name v s
      = heapSet s id (rawsetT t (.str name) v) := by
  have h1 : table.push_value_to_stack s = lua_push s (.table id) := by
    rw [Ref.push_value_to_stack, lua_rawgeti_registry, hv]
  rw [value_view_assign, h1]
  simp only [push_to_lua, lua_pushstring, lua_settable, stackAt_push_neg1,
             stackAt_push3_neg2, stackAt_push3_neg3, pop2_push3,
             lua_push_heap]
  rw [luaSettable_table]
  have ht2 : heapGet (lua_push s (.table id)) id = some t := ht
  rw [ht2]
  by_cases hr : rawget t (.str name) = LuaValue.nil
  · simp only [hr, ne_eq, not_true_eq_false, if_false, hm,
               lua_pop_heapSet_push]
  · simp only [ne_eq, hr, not_false_eq_true, if_true, lua_pop_heapSet_push]

theorem value_view_assign_eval_redirect (table : Ref) (name : String)
    (v : LuaValue) (s : LuaState) (id mid rid : Nat) (t mt rt : TableObj)
    (hv : regGet s table.mPtr = .table id) (ht : heapGet s id = some t)
    (hraw : rawget t (.str name) = .nil) (hm : t.meta = some mid)
    (hmt : heapGet s mid = some mt)
    (hnw : rawget mt (.str "__newindex") = .table rid)
    (hrt : heapGet s rid = some rt) (hrtm : rt.meta = none) :
    value_view_assign table name v s
      = heapSet s rid (rawsetT rt (.str name) v) := by
  have h1 : table.push_value_to_stack s = lua_push s (.table id) := by
    rw [Ref.push_value_to_stack, lua_rawgeti_registry, hv]
  rw [value_view_assign, h1]
  simp only [push_to_lua, lua_pushstring, lua_settable, stackAt_push_neg1,
             stackAt_push3_neg2, stackAt_push3_neg3, pop2_push3,
             lua_push_heap]
  obtain ⟨n, hn⟩ : ∃ n, s.heap.length = n + 1 := by
    cases hh : s.heap with
    | nil => rw [heapGet, hh] at ht; simp at ht
    | cons a l => exact ⟨l.length, by simp [hh]⟩
  rw [hn, luaSettable_table]
  have ht2 : heapGet (lua_push s (.table id)) id = some t := ht
  have hmt2 : heapGet (lua_push s (.table id)) mid = some mt := hmt
  have hrt2 : heapGet (lua_push s (.table id)) rid = some rt := hrt
  rw [ht2]
  simp only [hraw, ne_eq, not_true_eq_false, if_false, hm, hmt2, hnw]
  rw [luaSettable_table, hrt2]
  by_cases hr : rawget rt (.str name) = LuaValue.nil
  · simp only [hr, ne_eq, not_true_eq_false, if_false, hrtm,
               lua_pop_heapSet_push]
  · simp only [ne_eq, hr, not_false_eq_true, if_true, lua_pop_heapSet_push]

/-- Claim C8, counterexample to "agree **only** when the container defines
no such customization": on a container whose metatable defines a
`__newindex` handler but whose key is raw-present, the field-assignment
path and the raw path produce identical states — Lua's `newindex` event
fires only on raw-absent keys, so the two operations can agree even with
customization defined. -/
theorem C8_counterexample :
    value_view_assign rSlot1 "k" (.num 9) sC8
      = raw_set rSlot1 (.str "k") (.num 9) sC8 ∧
    heapGet sC8 9 = some ⟨[(.str "__newindex", .table 3)], none⟩ ∧
    rawget ⟨[(.str "__newindex", .table 3)], none⟩ (.str "__newindex")
      = .table 3 := by
  refine ⟨?_, by decide, by decide⟩
  decide

/-- Claim C8 (amended): the direct `raw_set` always performs the raw,
metamethod-bypassing store into the referenced container, while proxy
assignment performs the `newindex` field-assignment store.  When the
container has no metatable the two paths produce identical states; when
the key is raw-absent and the metatable defines a `__newindex` table
handler, the proxy stores into the handler table and leaves the
container's object untouched, whereas `raw_set` stores into the container
and leaves the handler table untouched.  (They may also coincide when the
key is raw-present, since the `newindex` event fires only on absent
keys.) -/
theorem C8_amended (table : Ref) (name : String) (v : LuaValue)
    (s : LuaState) (id : Nat) (t : TableObj)
    (hv : regGet s table.mPtr = .table id) (ht : heapGet s id = some t) :
    (t.meta = none →
      value_view_assign table name v s = raw_set table (.str name) v s) ∧
    (∀ (mid rid : Nat) (mt rt : TableObj),
      t.meta = some mid → heapGet s mid = some mt →
      rawget mt (.str "__newindex") = .table rid →
      heapGet s rid = some rt → rt.meta = none →
      rawget t (.str name) = .nil → rid ≠ id →
      heapGet (raw_set table (.str name) v s) id
          = some (rawsetT t (.str name) v) ∧
      heapGet (raw_set table (.str name) v s) rid = some rt ∧
      heapGet (value_view_assign table name v s) id = some t ∧
      heapGet (value_view_assign table name v s) rid
          = some (rawsetT rt (.str name) v)) := by
  constructor
  · intro hm
    rw [value_view_assign_eval_nometa table name v s id t hv ht hm,
        raw_set_eval table (.str name) v s id t hv ht]
  · intro mid rid mt rt hm hmt hnw hrt hrtm hraw hne
    rw [raw_set_eval table (.str name) v s id t hv ht,
        value_view_assign_eval_redirect table name v s id mid rid t mt rt
          hv ht hraw hm hmt hnw hrt hrtm]
    refine ⟨heapGet_heapSet_self _ _ _, ?_, ?_, heapGet_heapSet_self _ _ _⟩
    · rw [heapGet_heapSet_other _ _ _ _ hne]
      exact hrt
    · rw [heapGet_heapSet_other _ _ _ _ (Ne.symm hne)]
      exact ht

/-- Witness for C8 (amended): with an absent key and a `__newindex`
redirect, `raw_set` writes the container while the proxy writes the
handler table. -/
theorem C8_amended_witness :
    heapGet (raw_set rSlot1 (.str "k") (.num 7) sC8b) 1
        = some (rawsetT ⟨[], some 2⟩ (.str "k") (.num 7)) ∧
    heapGet (value_view_assign rSlot1 "k" (.num 7) sC8b) 1
        = some ⟨[], some 2⟩ ∧
    heapGet (value_view_assign rSlot1 "k" (.num 7) sC8b) 3
        = some (rawsetT ⟨[], none⟩ (.str "k") (.num 7)) := by
  have h := (C8_amended rSlot1 "k" (.num 7) sC8b 1 ⟨[], some 2⟩
      (by decide) (by decide)).2 2 3 ⟨[(.str "__newindex", .table 3)], none⟩
      ⟨[], none⟩ (by decide) (by decide) (by decide) (by decide) (by decide)
      (by decide) (by decide)
  exact ⟨h.1, h.2.2.1, h.2.2.2⟩
